import Mathlib

/-!
# pontoon: the node's election state machine (node.go)

A shallow embedding of `Node` and of the functions of `node.go` that mutate it:
`NewNode`, `AddToCluster`, `SetTerm`, `NextTerm`, `PromoteToLeader`, `EndElection`,
`RunForLeader`, the body of the `select` of `StateMachine`, the response handling of the
campaign goroutine started by `RunForLeader`, and `RequestVote`.

Modelling conventions.
* `int64` and `int` fields are `Int`; the two increments of the source (`n.Term++`,
  `n.Votes++`) wrap at 64 bits through `wrapInt64`.
* A channel field is either `Chan.nil` or `Chan.live`.
* Every handler of the `select` is one step of the loop. What the other goroutines do while
  a handler or a call is at a channel operation is an input of the step: whether the
  campaign goroutine acknowledges a cancellation (`ack`), and whether the loop receives the
  send of `RequestVote` and what that call then reads (`loop`).
* An operation that does not return (a panic, a receive or a send that blocks for ever) is
  reported as a `Fault`.
-/

namespace Pontoon

/-! ## Data model -/

/-- Reduction of an integer to the range of a two's complement `int64`. -/
def wrapInt64 (x : Int) : Int := (x + 2 ^ 63) % 2 ^ 64 - 2 ^ 63

/-- Role constant `Follower = iota` (node.go line 14). -/
abbrev Follower : Int := 0
/-- Role constant `Candidate` (node.go line 15). -/
abbrev Candidate : Int := 1
/-- Role constant `Leader` (node.go line 16). -/
abbrev Leader : Int := 2

/-- A channel-typed field: the nil channel or a channel made by `make`. -/
inductive Chan where
  | nil
  | live
  deriving DecidableEq, Repr

/-- The fields of `Node` (node.go lines 19-40) that the election logic reads or writes.
`elections` is not a field of the struct: it counts the campaign goroutines started on
line 186 that have not yet returned on line 212. -/
structure Node where
  Address : String
  State : Int
  Term : Int
  VotedFor : String
  Votes : Int
  Cluster : List String
  endElectionChan : Chan
  finishedElectionChan : Chan
  elections : Nat
  deriving DecidableEq, Repr

/-- The ways an operation fails to return. `closeOfNilChannel`: line 164 panics.
`blockedAtReceive`: the receive of line 166 never returns, `stuck` being the node as lines
164-165 left it. `blockedAtSend`: the send of line 247 is never received. -/
inductive Fault where
  | closeOfNilChannel
  | blockedAtReceive (stuck : Node)
  | blockedAtSend (term : Int)
  deriving DecidableEq, Repr

/-- Wire type `VoteRequest` as used by `SendRequestVote` and `RequestVote`. -/
structure VoteRequest where
  Term : Int
  CandidateID : String
  LastLogIndex : Int
  LastLogTerm : Int
  deriving DecidableEq, Repr

/-- Wire type `VoteResponse` as built positionally by `RequestVote`. -/
structure VoteResponse where
  Term : Int
  VoteGranted : Bool
  deriving DecidableEq, Repr

/-! ## Node operations -/

/-- `NewNode` (lines 42-54): every field not listed in the literal has its zero value. -/
def NewNode (address : String) : Node :=
  { Address := address, State := Follower, Term := 0, VotedFor := "", Votes := 0,
    Cluster := [], endElectionChan := Chan.nil, finishedElectionChan := Chan.nil,
    elections := 0 }

/-- `AddToCluster` (lines 60-62). -/
def AddToCluster (n : Node) (member : String) : Node :=
  { n with Cluster := n.Cluster ++ [member] }

/-- `SetTerm` (lines 139-146). -/
def SetTerm (n : Node) (term : Int) : Node :=
  { n with Term := term, State := Follower, VotedFor := "", Votes := 0 }

/-- `NextTerm` (lines 148-155). -/
def NextTerm (n : Node) : Node :=
  { n with Term := wrapInt64 (n.Term + 1), State := Follower, VotedFor := "", Votes := 0 }

/-- `PromoteToLeader` (lines 157-161). -/
def PromoteToLeader (n : Node) : Node :=
  { n with State := Leader }

/-- `EndElection` (lines 163-168): closes `endElectionChan` (a panic when it is nil), clears
it, then waits on `finishedElectionChan` and clears that one too. The wait returns only when
the campaign goroutine closes `finishedElectionChan` on line 211: `ack` says whether it
does. It does not when it is blocked in a send of line 204 or 208, which only the loop
receives, or when it enters its `select` after line 165 and reads a nil `endElectionChan`;
the wait never returns either when `finishedElectionChan` is nil. -/
def EndElection (n : Node) (ack : Bool) : Except Fault Node :=
  if n.endElectionChan = Chan.nil then Except.error Fault.closeOfNilChannel
  else if n.finishedElectionChan = Chan.nil ∨ ack = false then
    Except.error (Fault.blockedAtReceive { n with endElectionChan := Chan.nil })
  else Except.ok { n with endElectionChan := Chan.nil, finishedElectionChan := Chan.nil,
                          elections := n.elections - 1 }

/-- `RunForLeader` (lines 177-217): the locked block, and the start of one campaign
goroutine. -/
def RunForLeader (n : Node) : Node :=
  { n with State := Candidate, Votes := wrapInt64 (n.Votes + 1),
           endElectionChan := Chan.live, finishedElectionChan := Chan.live,
           elections := n.elections + 1 }

/-! ## The event loop -/

/-- The cases of the `select` of `StateMachine` (lines 89-128) that run a handler and go
round the loop again; the exit case leaves the loop. -/
inductive Event where
  | termDiscover (newTerm : Int)
  | requestVote (vreq : VoteRequest)
  | appendEntries
  | electionTimer
  | voteResponse
  | heartbeatTimer
  deriving DecidableEq, Repr

/-- The value the source names `majority` (line 114). -/
def majority (n : Node) : Int := (n.Cluster.length : Int) / 2 + 1

/-- The guarded call of `EndElection` that opens two handlers (lines 93-96, 104-107). -/
def endIfElecting (n : Node) (ack : Bool) : Except Fault Node :=
  if n.endElectionChan ≠ Chan.nil then EndElection n ack else Except.ok n

/-- One iteration of the loop of `StateMachine` (lines 88-133) on the given event; `ack` is
passed to the call of `EndElection`, if the handler makes one. -/
def StateMachine (n : Node) (ack : Bool) : Event → Except Fault Node
  | Event.termDiscover newTerm =>
      match endIfElecting n ack with
      | Except.error f => Except.error f
      | Except.ok n1 => Except.ok (SetTerm n1 newTerm)
  | Event.requestVote _ => Except.ok n
  | Event.appendEntries => Except.ok n
  | Event.electionTimer =>
      match endIfElecting n ack with
      | Except.error f => Except.error f
      | Except.ok n1 => Except.ok (RunForLeader (NextTerm n1))
  | Event.voteResponse =>
      let n1 : Node := { n with Votes := wrapInt64 (n.Votes + 1) }
      let votes := n1.Votes
      if votes ≥ majority n1 then
        match EndElection n1 ack with
        | Except.error f => Except.error f
        | Except.ok n2 => Except.ok (PromoteToLeader n2)
      else Except.ok n1
  | Event.heartbeatTimer => Except.ok n

/-- The loop run over a list of events, each with the `ack` of its handler, stopping at the
first fault. -/
def runEvents (n : Node) : List (Event × Bool) → Except Fault Node
  | [] => Except.ok n
  | p :: ps =>
      match StateMachine n p.2 p.1 with
      | Except.error f => Except.error f
      | Except.ok n1 => runEvents n1 ps

/-- What the campaign goroutine does with one entry of its response channel (lines
197-209): the event it sends to the loop, if any. A nil response is a failed RPC. -/
def campaignResponse (electionTerm : Int) : Option VoteResponse → Option Event
  | none => none
  | some resp =>
      if resp.Term > electionTerm then some (Event.termDiscover resp.Term)
      else if resp.VoteGranted then some Event.voteResponse
      else none

/-! ## RequestVote -/

/-- What one call of `RequestVote` that returns produces: the returned pair and the value it
sent on `termDiscoverChan`, if it sent one. -/
structure VoteCall where
  resp : VoteResponse
  err : Option String
  sent : Option Int
  deriving DecidableEq, Repr

/-- `RequestVote` (lines 241-257). The function assigns to no field of the node. In the
branch of a higher term it sends on the unbuffered `termDiscoverChan` (line 247) and then
reads `n.Term` without the lock (line 248). `loop` is what the loop does about it: `none`
when it never receives the send (it has left its loop or is blocked in `EndElection`), and
the call never returns; `some t` when it receives, `t` being the value of `n.Term` that line
248 then reads, whatever the loop has made of the term by that time. -/
def RequestVote (n : Node) (vr : VoteRequest) (loop : Option Int) : Except Fault VoteCall :=
  if vr.Term < n.Term then
    Except.ok { resp := { Term := n.Term, VoteGranted := false }, err := none, sent := none }
  else if vr.Term > n.Term then
    match loop with
    | none => Except.error (Fault.blockedAtSend vr.Term)
    | some termRead =>
        Except.ok { resp := { Term := termRead, VoteGranted := false }, err := none,
                    sent := some vr.Term }
  else if n.VotedFor ≠ "" ∧ n.VotedFor ≠ vr.CandidateID then
    Except.ok { resp := { Term := n.Term, VoteGranted := false }, err := none, sent := none }
  else
    Except.ok { resp := { Term := n.Term, VoteGranted := true }, err := none, sent := none }

/-- The node once a call of `RequestVote` has returned and the loop has handled what the
call sent on `termDiscoverChan`. -/
def afterRequestVote (n : Node) (ack : Bool) (c : VoteCall) : Except Fault Node :=
  match c.sent with
  | none => Except.ok n
  | some t => StateMachine n ack (Event.termDiscover t)

/-! ## The quorum of the specification -/

/-- The quorum as the specification words it: floor(n/2)+1 with n = len(cluster)+1. -/
def specQuorum (cluster : List String) : Int := ((cluster.length : Int) + 1) / 2 + 1

/-! ## Reachable states of the event loop -/

/-- The node as a program sets it up: `NewNode`, then one `AddToCluster` per peer. -/
def startNode (address : String) (cluster : List String) : Node :=
  cluster.foldl AddToCluster (NewNode address)

/-- Whether the loop can receive the event in state `n`: a vote is sent by the campaign
goroutine only (line 208), which runs only while an election is active; every other event
comes from a timer or from a request handler. -/
def enabled (n : Node) : Event → Bool
  | Event.voteResponse => decide (n.endElectionChan ≠ Chan.nil)
  | _ => true

/-- The states the loop reaches from `n0` by handlers that ran to their end. -/
inductive Reachable (n0 : Node) : Node → Prop
  | init : Reachable n0 n0
  | step {n m : Node} {e : Event} {a : Bool} :
      Reachable n0 n → enabled n e = true → StateMachine n a e = Except.ok m →
      Reachable n0 m

/-- The invariant of the loop: both election channels are set together, exactly while the
node is a Candidate, with exactly one campaign goroutine then, and the peer list is fixed. -/
def Inv (cluster : List String) (n : Node) : Prop :=
  n.Cluster = cluster ∧
  n.finishedElectionChan = n.endElectionChan ∧
  (n.endElectionChan ≠ Chan.nil ↔ n.State = Candidate) ∧
  n.elections = (if n.endElectionChan ≠ Chan.nil then 1 else 0) ∧
  (n.State = Candidate → 1 ≤ n.Votes ∧ n.Votes ≤ max 1 ((cluster.length : Int) / 2))

/-! ## Basic facts -/

theorem wrapInt64_of_range (x : Int) (h1 : -(2 ^ 63) ≤ x) (h2 : x < 2 ^ 63) :
    wrapInt64 x = x := by
  unfold wrapInt64
  omega

/-- The increment of `NextTerm` wraps: from the largest `int64` term an election timeout
leads to the smallest one. -/
theorem nextTerm_wraps :
    (NextTerm (SetTerm (NewNode "a") 9223372036854775807)).Term = -9223372036854775808 := by
  decide

theorem startNode_cluster (address : String) (cluster : List String) :
    (startNode address cluster).Cluster = cluster := by
  have key : ∀ (l : List String) (n : Node),
      (l.foldl AddToCluster n).Cluster = n.Cluster ++ l := by
    intro l
    induction l with
    | nil => intro n; simp
    | cons a l ih => intro n; simp [List.foldl, ih, AddToCluster]
  simpa [startNode, NewNode] using key cluster (NewNode address)

theorem startNode_fields (address : String) (cluster : List String) :
    (startNode address cluster).State = Follower ∧
    (startNode address cluster).endElectionChan = Chan.nil ∧
    (startNode address cluster).finishedElectionChan = Chan.nil ∧
    (startNode address cluster).elections = 0 := by
  have key : ∀ (l : List String) (n : Node),
      (l.foldl AddToCluster n).State = n.State ∧
      (l.foldl AddToCluster n).endElectionChan = n.endElectionChan ∧
      (l.foldl AddToCluster n).finishedElectionChan = n.finishedElectionChan ∧
      (l.foldl AddToCluster n).elections = n.elections := by
    intro l
    induction l with
    | nil => intro n; simp
    | cons a l ih => intro n; simpa [List.foldl, AddToCluster] using ih (AddToCluster n a)
  simpa [startNode, NewNode] using key cluster (NewNode address)

theorem inv_start (address : String) (cluster : List String) :
    Inv cluster (startNode address cluster) := by
  obtain ⟨h1, h2, h3, h4⟩ := startNode_fields address cluster
  refine ⟨startNode_cluster address cluster, ?_, ?_, ?_, ?_⟩
  · rw [h2, h3]
  · rw [h1, h2]; simp
  · rw [h2, h4]; simp
  · rw [h1]; intro h; simp at h

/-- An acknowledged `EndElection` on live channels returns. -/
theorem EndElection_live (n : Node) (he : n.endElectionChan ≠ Chan.nil)
    (hf : n.finishedElectionChan ≠ Chan.nil) :
    EndElection n true = Except.ok { n with endElectionChan := Chan.nil,
                                            finishedElectionChan := Chan.nil,
                                            elections := n.elections - 1 } := by
  unfold EndElection
  rw [if_neg he, if_neg (by simp [hf])]

/-- An `EndElection` that is not acknowledged blocks, the marker already cleared. -/
theorem EndElection_unacknowledged (n : Node) (he : n.endElectionChan ≠ Chan.nil) :
    EndElection n false
      = Except.error (Fault.blockedAtReceive { n with endElectionChan := Chan.nil }) := by
  unfold EndElection
  rw [if_neg he, if_pos (Or.inr rfl)]

/-- What a call of `EndElection` that returned has done. -/
theorem EndElection_ok (n m : Node) (ack : Bool) (h : EndElection n ack = Except.ok m) :
    n.endElectionChan ≠ Chan.nil ∧ n.finishedElectionChan ≠ Chan.nil ∧ ack = true ∧
    m = { n with endElectionChan := Chan.nil, finishedElectionChan := Chan.nil,
                 elections := n.elections - 1 } := by
  unfold EndElection at h
  by_cases he : n.endElectionChan = Chan.nil
  · rw [if_pos he] at h; exact Except.noConfusion h
  · rw [if_neg he] at h
    by_cases hb : n.finishedElectionChan = Chan.nil ∨ ack = false
    · rw [if_pos hb] at h; exact Except.noConfusion h
    · rw [if_neg hb] at h
      have hm : m = { n with endElectionChan := Chan.nil, finishedElectionChan := Chan.nil,
                             elections := n.elections - 1 } := by
        injection h with h; exact h.symm
      refine ⟨he, fun hf => hb (Or.inl hf), ?_, hm⟩
      cases ack with
      | true => rfl
      | false => exact absurd (Or.inr rfl) hb

/-- A call of `EndElection` never fails otherwise than by the panic of line 164, when the
marker is nil, or by the wait of line 166. -/
theorem EndElection_outcome (n : Node) (ack : Bool) (he : n.endElectionChan ≠ Chan.nil)
    (hf : n.finishedElectionChan ≠ Chan.nil) :
    (ack = true ∧ ∃ m, EndElection n ack = Except.ok m) ∨
    (ack = false ∧ ∃ s, EndElection n ack = Except.error (Fault.blockedAtReceive s)) := by
  cases ack with
  | true => exact Or.inl ⟨rfl, _, EndElection_live n he hf⟩
  | false => exact Or.inr ⟨rfl, _, EndElection_unacknowledged n he⟩

theorem inv_endIfElecting (cluster : List String) (n k : Node) (ack : Bool)
    (h : Inv cluster n) (hk : endIfElecting n ack = Except.ok k) :
    k.Cluster = cluster ∧ k.endElectionChan = Chan.nil ∧
      k.finishedElectionChan = Chan.nil ∧ k.elections = 0 := by
  obtain ⟨hc, hf, _, hel, _⟩ := h
  unfold endIfElecting at hk
  by_cases he : n.endElectionChan = Chan.nil
  · rw [if_neg (not_not.mpr he)] at hk
    injection hk with hk
    subst hk
    exact ⟨hc, he, by rw [hf, he], by simp [hel, he]⟩
  · rw [if_pos he] at hk
    obtain ⟨_, _, _, hm⟩ := EndElection_ok n k ack hk
    subst hm
    refine ⟨hc, rfl, rfl, ?_⟩
    simp [hel, he]

theorem endIfElecting_outcome (cluster : List String) (n : Node) (ack : Bool)
    (h : Inv cluster n) :
    (∃ k, endIfElecting n ack = Except.ok k) ∨
    (ack = false ∧ ∃ s, endIfElecting n ack = Except.error (Fault.blockedAtReceive s)) := by
  obtain ⟨_, hf, _, _, _⟩ := h
  unfold endIfElecting
  by_cases he : n.endElectionChan = Chan.nil
  · rw [if_neg (not_not.mpr he)]
    exact Or.inl ⟨n, rfl⟩
  · rw [if_pos he]
    have hf2 : n.finishedElectionChan ≠ Chan.nil := by rw [hf]; exact he
    rcases EndElection_outcome n ack he hf2 with ⟨_, m, hm⟩ | ⟨ha, s, hs⟩
    · exact Or.inl ⟨m, hm⟩
    · exact Or.inr ⟨ha, s, hs⟩

theorem inv_step (cluster : List String) (hlen : (cluster.length : Int) < 2 ^ 63)
    (n m : Node) (e : Event) (ack : Bool) (h : Inv cluster n) (hen : enabled n e = true)
    (hs : StateMachine n ack e = Except.ok m) : Inv cluster m := by
  cases e with
  | termDiscover t =>
      simp only [StateMachine] at hs
      cases hk : endIfElecting n ack with
      | error f => rw [hk] at hs; exact Except.noConfusion hs
      | ok k =>
          rw [hk] at hs
          obtain ⟨hc, h1, h2, h3⟩ := inv_endIfElecting cluster n k ack h hk
          simp only [Except.ok.injEq] at hs
          subst hs
          refine ⟨hc, ?_, ?_, ?_, ?_⟩ <;> simp [SetTerm, h1, h2, h3]
  | requestVote v => simp only [StateMachine, Except.ok.injEq] at hs; subst hs; exact h
  | appendEntries => simp only [StateMachine, Except.ok.injEq] at hs; subst hs; exact h
  | heartbeatTimer => simp only [StateMachine, Except.ok.injEq] at hs; subst hs; exact h
  | electionTimer =>
      simp only [StateMachine] at hs
      cases hk : endIfElecting n ack with
      | error f => rw [hk] at hs; exact Except.noConfusion hs
      | ok k =>
          rw [hk] at hs
          obtain ⟨hc, h1, h2, h3⟩ := inv_endIfElecting cluster n k ack h hk
          simp only [Except.ok.injEq] at hs
          subst hs
          have hw : wrapInt64 (0 + 1) = 1 := by decide
          refine ⟨hc, rfl, ?_, ?_, ?_⟩
          · simp [RunForLeader]
          · simp [RunForLeader, NextTerm, h3]
          · intro _
            show 1 ≤ wrapInt64 (0 + 1) ∧ wrapInt64 (0 + 1) ≤ max 1 ((cluster.length : Int) / 2)
            rw [hw]
            exact ⟨le_refl 1, le_max_left 1 _⟩
  | voteResponse =>
      obtain ⟨hc, hf, hiff, hel, hv⟩ := h
      have he : n.endElectionChan ≠ Chan.nil := by simpa [enabled] using hen
      have hcand : n.State = Candidate := hiff.mp he
      obtain ⟨hv1, hv2⟩ := hv hcand
      have hw : wrapInt64 (n.Votes + 1) = n.Votes + 1 := by
        apply wrapInt64_of_range <;> omega
      simp only [StateMachine, hw, majority] at hs
      by_cases hmaj : n.Votes + 1 ≥ (n.Cluster.length : Int) / 2 + 1
      · rw [if_pos hmaj] at hs
        cases hk : EndElection { n with Votes := n.Votes + 1 } ack with
        | error f => rw [hk] at hs; exact Except.noConfusion hs
        | ok k =>
            rw [hk] at hs
            obtain ⟨_, _, _, hkm⟩ := EndElection_ok _ k ack hk
            simp only [Except.ok.injEq] at hs
            subst hs
            subst hkm
            have hel1 : n.elections = 1 := by rw [hel, if_pos he]
            refine ⟨hc, rfl, ?_, ?_, ?_⟩ <;> simp [PromoteToLeader, hel1]
      · rw [if_neg hmaj] at hs
        simp only [Except.ok.injEq] at hs
        subst hs
        rw [hc] at hmaj
        refine ⟨hc, hf, hiff, hel, ?_⟩
        intro _
        constructor
        · show 1 ≤ n.Votes + 1
          omega
        · show n.Votes + 1 ≤ max 1 ((cluster.length : Int) / 2)
          omega

theorem inv_reachable (address : String) (cluster : List String)
    (hlen : (cluster.length : Int) < 2 ^ 63) (n : Node)
    (h : Reachable (startNode address cluster) n) : Inv cluster n := by
  induction h with
  | init => exact inv_start address cluster
  | step _ hen hs ih => exact inv_step cluster hlen _ _ _ _ ih hen hs

/-- Under the invariant a handler either runs to its end or, when the campaign goroutine
does not acknowledge, blocks in the wait of `EndElection`; it never panics. -/
theorem inv_outcome (cluster : List String) (n : Node) (e : Event) (ack : Bool)
    (h : Inv cluster n) (hen : enabled n e = true) :
    (∃ m, StateMachine n ack e = Except.ok m) ∨
    (ack = false ∧ ∃ s, StateMachine n ack e = Except.error (Fault.blockedAtReceive s)) := by
  cases e with
  | termDiscover t =>
      rcases endIfElecting_outcome cluster n ack h with ⟨k, hk⟩ | ⟨ha, s, hs⟩
      · exact Or.inl ⟨SetTerm k t, by simp only [StateMachine, hk]⟩
      · exact Or.inr ⟨ha, s, by simp only [StateMachine, hs]⟩
  | requestVote v => exact Or.inl ⟨n, rfl⟩
  | appendEntries => exact Or.inl ⟨n, rfl⟩
  | heartbeatTimer => exact Or.inl ⟨n, rfl⟩
  | electionTimer =>
      rcases endIfElecting_outcome cluster n ack h with ⟨k, hk⟩ | ⟨ha, s, hs⟩
      · exact Or.inl ⟨RunForLeader (NextTerm k), by simp only [StateMachine, hk]⟩
      · exact Or.inr ⟨ha, s, by simp only [StateMachine, hs]⟩
  | voteResponse =>
      obtain ⟨_, hf, _, _, _⟩ := h
      have he : n.endElectionChan ≠ Chan.nil := by simpa [enabled] using hen
      have hf2 : n.finishedElectionChan ≠ Chan.nil := by rw [hf]; exact he
      simp only [StateMachine]
      split
      · rcases EndElection_outcome { n with Votes := wrapInt64 (n.Votes + 1) } ack he hf2
          with ⟨_, m, hm⟩ | ⟨ha, s, hs⟩
        · exact Or.inl ⟨PromoteToLeader m, by rw [hm]⟩
        · exact Or.inr ⟨ha, s, by rw [hs]⟩
      · exact Or.inl ⟨_, rfl⟩

/-- What the term-discovered handler has done when it ran to its end. -/
theorem termDiscover_result (n m : Node) (t : Int) (ack : Bool)
    (h : StateMachine n ack (Event.termDiscover t) = Except.ok m) :
    m.Term = t ∧ m.State = Follower ∧ m.VotedFor = "" ∧ m.Votes = 0 ∧
    m.endElectionChan = Chan.nil := by
  simp only [StateMachine] at h
  cases hk : endIfElecting n ack with
  | error f => rw [hk] at h; exact Except.noConfusion h
  | ok k =>
      rw [hk] at h
      simp only [Except.ok.injEq] at h
      subst h
      refine ⟨rfl, rfl, rfl, rfl, ?_⟩
      show k.endElectionChan = Chan.nil
      unfold endIfElecting at hk
      by_cases he : n.endElectionChan = Chan.nil
      · rw [if_neg (not_not.mpr he)] at hk
        injection hk with hk
        subst hk
        exact he
      · rw [if_pos he] at hk
        obtain ⟨_, _, _, hm⟩ := EndElection_ok n k ack hk
        subst hm
        rfl

/-- The term-discovered handler runs to its end when no election is in progress, and when
one is and the campaign goroutine acknowledges its cancellation. -/
theorem termDiscover_completes (n : Node) (t : Int) (ack : Bool)
    (h : n.endElectionChan = Chan.nil ∨ (ack = true ∧ n.finishedElectionChan ≠ Chan.nil)) :
    ∃ m, StateMachine n ack (Event.termDiscover t) = Except.ok m := by
  by_cases he : n.endElectionChan = Chan.nil
  · refine ⟨SetTerm n t, ?_⟩
    simp only [StateMachine, endIfElecting, he, ne_eq, not_true_eq_false, if_false]
  · rcases h with h | ⟨ha, hf⟩
    · exact absurd h he
    · subst ha
      refine ⟨SetTerm { n with endElectionChan := Chan.nil, finishedElectionChan := Chan.nil,
                               elections := n.elections - 1 } t, ?_⟩
      simp only [StateMachine, endIfElecting, ne_eq, he, not_false_eq_true, if_true,
        EndElection_live n he hf]

/-! ## Term changes (C1, C4) -/

/-- C1, evaluated at the failing input. Two vote requests of terms 5 and 3 both pass the
test `vr.Term > n.Term` of `RequestVote` on a fresh node at term 0 and both send their term
on `termDiscoverChan`; the loop handles 5, then 3, and `SetTerm` assigns without comparing:
the term of the node goes from 5 down to 3. -/
theorem term_discover_lowers_term :
    RequestVote (NewNode "a") ⟨5, "b", 0, 0⟩ (some 0)
      = Except.ok { resp := ⟨0, false⟩, err := none, sent := some 5 } ∧
    RequestVote (NewNode "a") ⟨3, "c", 0, 0⟩ (some 5)
      = Except.ok { resp := ⟨5, false⟩, err := none, sent := some 3 } ∧
    StateMachine (NewNode "a") false (Event.termDiscover 5)
      = Except.ok (SetTerm (NewNode "a") 5) ∧
    StateMachine (SetTerm (NewNode "a") 5) false (Event.termDiscover 3)
      = Except.ok (SetTerm (NewNode "a") 3) ∧
    (SetTerm (NewNode "a") 5).Term = 5 ∧
    (SetTerm (NewNode "a") 3).Term = 3 ∧
    (SetTerm (NewNode "a") 3).Term < (SetTerm (NewNode "a") 5).Term := by
  refine ⟨rfl, rfl, rfl, rfl, rfl, rfl, ?_⟩
  decide

/-- C4, evaluated at the failing input. Node a, with the one peer b, is a Candidate of
term 1 after an election timeout; the answer of b carries term 2 and the campaign goroutine
sends term-discovered(2). The handler calls `EndElection`, and when the goroutine does not
acknowledge (it reads the marker after line 165 has cleared it) the handler blocks in the
wait of line 166: `SetTerm` never runs and the node is left a Candidate at term 1 with its
vote count 1. -/
theorem step_down_blocks_unacknowledged :
    ∃ n, StateMachine (startNode "a" ["b"]) false Event.electionTimer = Except.ok n ∧
      n.State = Candidate ∧ n.Term = 1 ∧ n.Votes = 1 ∧ n.endElectionChan = Chan.live ∧
      n.finishedElectionChan = Chan.live ∧
      campaignResponse n.Term (some ⟨2, false⟩) = some (Event.termDiscover 2) ∧
      ∃ stuck, StateMachine n false (Event.termDiscover 2)
          = Except.error (Fault.blockedAtReceive stuck) ∧
        stuck.State = Candidate ∧ stuck.Term = 1 ∧ stuck.Votes = 1 ∧
        stuck.endElectionChan = Chan.nil := by
  refine ⟨RunForLeader (NextTerm (startNode "a" ["b"])), rfl, ?_, ?_, ?_, rfl, rfl, ?_,
    { RunForLeader (NextTerm (startNode "a" ["b"])) with endElectionChan := Chan.nil },
    rfl, ?_, ?_, ?_, rfl⟩ <;> decide

/-! ## Vote requests (C2, C5, C6, C8) -/

/-- C2, evaluated at the failing input. A node at term 1 that has not voted receives a
request of candidate A and then one of candidate B, both of term 1: the first is granted,
the node is left exactly as it was (`VotedFor` still empty), and the second is granted
too. -/
theorem two_candidates_granted_in_one_term :
    (SetTerm (NewNode "n") 1).Term = 1 ∧
    RequestVote (SetTerm (NewNode "n") 1) ⟨1, "A", 0, 0⟩ none
      = Except.ok { resp := ⟨1, true⟩, err := none, sent := none } ∧
    afterRequestVote (SetTerm (NewNode "n") 1) false
        { resp := ⟨1, true⟩, err := none, sent := none }
      = Except.ok (SetTerm (NewNode "n") 1) ∧
    (SetTerm (NewNode "n") 1).VotedFor = "" ∧
    RequestVote (SetTerm (NewNode "n") 1) ⟨1, "B", 0, 0⟩ none
      = Except.ok { resp := ⟨1, true⟩, err := none, sent := none } := by
  refine ⟨rfl, rfl, rfl, rfl, rfl⟩

/-- C5 as stated fails: a Follower at term 0 that receives RequestVote of term 1 from
candidate A answers `VoteGranted = false`, whether the answer is built after the loop has
run `SetTerm` or before, and ends at term 1 with `VotedFor` empty, not A. -/
theorem higher_term_request_not_granted :
    RequestVote (NewNode "B") ⟨1, "A", 0, 0⟩ (some 1)
      = Except.ok { resp := ⟨1, false⟩, err := none, sent := some 1 } ∧
    RequestVote (NewNode "B") ⟨1, "A", 0, 0⟩ (some 0)
      = Except.ok { resp := ⟨0, false⟩, err := none, sent := some 1 } ∧
    afterRequestVote (NewNode "B") false { resp := ⟨1, false⟩, err := none, sent := some 1 }
      = Except.ok (SetTerm (NewNode "B") 1) ∧
    (SetTerm (NewNode "B") 1).VotedFor = "" ∧
    (SetTerm (NewNode "B") 1).VotedFor ≠ "A" := by
  refine ⟨rfl, rfl, rfl, rfl, ?_⟩
  decide

/-- C5, amended: for every node and every vote request of a higher term, `RequestVote` does
not grant. It sends the term of the request on `termDiscoverChan`; when the loop never
receives it the call does not return, and when the loop receives it the call returns
`VoteGranted = false` with a nil error, the request not being evaluated in the new term.
The handler of the loop, when no election is in progress or the campaign goroutine
acknowledges the cancellation, leaves the node a Follower at the term of the request with
an empty `VotedFor` and zero `Votes`. -/
theorem higher_term_request_rejected (n : Node) (vr : VoteRequest)
    (h : n.Term < vr.Term) :
    RequestVote n vr none = Except.error (Fault.blockedAtSend vr.Term) ∧
    (∀ termRead : Int, ∃ c, RequestVote n vr (some termRead) = Except.ok c ∧
      c.resp.VoteGranted = false ∧ c.err = none ∧ c.sent = some vr.Term) ∧
    (∀ ack : Bool,
      (n.endElectionChan = Chan.nil ∨ (ack = true ∧ n.finishedElectionChan ≠ Chan.nil)) →
      ∃ m, StateMachine n ack (Event.termDiscover vr.Term) = Except.ok m ∧
        m.Term = vr.Term ∧ m.State = Follower ∧ m.VotedFor = "" ∧ m.Votes = 0) := by
  have h1 : ¬ vr.Term < n.Term := by omega
  have h2 : vr.Term > n.Term := by omega
  refine ⟨?_, ?_, ?_⟩
  · simp only [RequestVote, if_neg h1, if_pos h2]
  · intro termRead
    refine ⟨{ resp := { Term := termRead, VoteGranted := false }, err := none,
              sent := some vr.Term }, ?_, rfl, rfl, rfl⟩
    simp only [RequestVote, if_neg h1, if_pos h2]
  · intro ack hc
    obtain ⟨m, hm⟩ := termDiscover_completes n vr.Term ack hc
    obtain ⟨r1, r2, r3, r4, _⟩ := termDiscover_result n m vr.Term ack hm
    exact ⟨m, hm, r1, r2, r3, r4⟩

/-- Witness of the amended C5: the Follower at term 0 and the request of term 1 from A. -/
theorem higher_term_request_rejected_witness :
    (NewNode "B").Term < (1 : Int) ∧
    (∃ c, RequestVote (NewNode "B") ⟨1, "A", 0, 0⟩ (some 0) = Except.ok c ∧
      c.resp.VoteGranted = false ∧ c.err = none ∧ c.sent = some 1) ∧
    ∃ m, StateMachine (NewNode "B") false (Event.termDiscover 1) = Except.ok m ∧
      m.Term = 1 ∧ m.State = Follower ∧ m.VotedFor = "" ∧ m.Votes = 0 :=
  ⟨by decide,
    (higher_term_request_rejected (NewNode "B") ⟨1, "A", 0, 0⟩ (by decide)).2.1 0,
    (higher_term_request_rejected (NewNode "B") ⟨1, "A", 0, 0⟩ (by decide)).2.2 false
      (Or.inl rfl)⟩

/-- C6: stale vote rejection. For every node and every vote request of a term below the
term of the node, `RequestVote` returns the term of the node with `VoteGranted = false` and
a nil error, sends nothing on `termDiscoverChan`, whatever the loop is doing, and the node
is left as it was. -/
theorem stale_vote_rejected (n : Node) (vr : VoteRequest) (loop : Option Int) (ack : Bool)
    (h : vr.Term < n.Term) :
    RequestVote n vr loop
      = Except.ok { resp := { Term := n.Term, VoteGranted := false }, err := none,
                    sent := none } ∧
    afterRequestVote n ack
        { resp := { Term := n.Term, VoteGranted := false }, err := none, sent := none }
      = Except.ok n := by
  refine ⟨?_, rfl⟩
  simp only [RequestVote, if_pos h]

/-- Witness of C6: a request of term 0 against a node at term 5 is answered
`{term: 5, voteGranted: false}`. -/
theorem stale_vote_rejected_witness :
    (0 : Int) < (SetTerm (NewNode "a") 5).Term ∧
    RequestVote (SetTerm (NewNode "a") 5) ⟨0, "b", 0, 0⟩ none
      = Except.ok { resp := { Term := 5, VoteGranted := false }, err := none,
                    sent := none } ∧
    afterRequestVote (SetTerm (NewNode "a") 5) false
        { resp := { Term := 5, VoteGranted := false }, err := none, sent := none }
      = Except.ok (SetTerm (NewNode "a") 5) :=
  ⟨by decide,
    stale_vote_rejected (SetTerm (NewNode "a") 5) ⟨0, "b", 0, 0⟩ none false (by decide)⟩

/-- C8, evaluated at the failing input. Node a, with the one peer b, handles an election
timeout and is a Candidate of term 1 with its own vote counted, yet `VotedFor` is still
empty, and a request of term 1 from candidate b is granted. -/
theorem candidate_grants_rival :
    ∃ m, StateMachine (startNode "a" ["b"]) false Event.electionTimer = Except.ok m ∧
      m.State = Candidate ∧ m.Term = 1 ∧ m.Votes = 1 ∧ m.Address = "a" ∧ m.VotedFor = "" ∧
      RequestVote m ⟨1, "b", 0, 0⟩ none
        = Except.ok { resp := ⟨1, true⟩, err := none, sent := none } := by
  refine ⟨RunForLeader (NextTerm (startNode "a" ["b"])), rfl, ?_, ?_, ?_, ?_, ?_, rfl⟩ <;>
    decide

/-! ## Elections and promotion (C3, C7, C9, C10) -/

/-- C3, evaluated at the failing input. With three peers (four voters) the code computes
`majority = 2` where the quorum is 3; the node counts its own vote, one peer grants, and the
vote handler promotes it to Leader with 2 votes. In general the two thresholds agree exactly
for an even number of peers; for an odd number `majority` is one short. -/
theorem majority_below_quorum :
    majority (startNode "a" ["b", "c", "d"]) = 2 ∧
    specQuorum ["b", "c", "d"] = 3 ∧
    (∃ m, runEvents (startNode "a" ["b", "c", "d"])
          [(Event.electionTimer, false), (Event.voteResponse, true)]
        = Except.ok m ∧ m.State = Leader ∧ m.Votes = 2 ∧ m.Votes < specQuorum m.Cluster) ∧
    (∀ n : Node, (n.Cluster.length % 2 = 0 → majority n = specQuorum n.Cluster) ∧
       (n.Cluster.length % 2 = 1 → majority n + 1 = specQuorum n.Cluster)) := by
  refine ⟨by decide, by decide, ⟨_, rfl, by decide, by decide, by decide⟩, ?_⟩
  intro n
  unfold majority specQuorum
  constructor <;> intro h <;> omega

/-- C7, evaluated at the failing input. A fresh node without peers handles one election
timeout: it is at term 1 with 1 vote, which meets the threshold 1 that the vote handler
would compare with, but its state is Candidate, not Leader; a second timeout only starts
term 2, again as Candidate, when the campaign goroutine acknowledges, and leaves the node
a Candidate of term 1 when it does not. -/
theorem single_node_stays_candidate :
    (∃ m, StateMachine (NewNode "a") false Event.electionTimer = Except.ok m ∧
      m.Term = 1 ∧ m.Votes = 1 ∧ majority m = 1 ∧ m.State = Candidate ∧ m.State ≠ Leader) ∧
    (∃ m, runEvents (NewNode "a") [(Event.electionTimer, false), (Event.electionTimer, true)]
        = Except.ok m ∧
      m.Term = 2 ∧ m.Votes = 1 ∧ m.State = Candidate) ∧
    (∃ s, runEvents (NewNode "a") [(Event.electionTimer, false), (Event.electionTimer, false)]
        = Except.error (Fault.blockedAtReceive s) ∧
      s.Term = 1 ∧ s.Votes = 1 ∧ s.State = Candidate) := by
  refine ⟨⟨_, rfl, ?_, ?_, ?_, ?_, ?_⟩, ⟨_, rfl, ?_, ?_, ?_⟩, ⟨_, rfl, ?_, ?_, ?_⟩⟩ <;>
    decide

/-- C9 as stated fails: on a Follower (here one that moved to term 7 on a discovered term)
`PromoteToLeader` is not a no-op, the state becomes Leader. -/
theorem promoteToLeader_on_follower :
    (SetTerm (NewNode "a") 7).State = Follower ∧
    (PromoteToLeader (SetTerm (NewNode "a") 7)).State = Leader ∧
    PromoteToLeader (SetTerm (NewNode "a") 7) ≠ SetTerm (NewNode "a") 7 := by
  refine ⟨rfl, rfl, ?_⟩
  decide

/-- C9, amended: `PromoteToLeader` has no guard, for every node state it sets the state to
Leader and leaves `Term`, `VotedFor` and `Votes` as they were; the guard is at its call site:
from a reachable state, a step of the loop turns a node that is not Leader into a Leader
only on a vote event handled while the node is a Candidate with its election in progress
and the incremented vote count has reached `majority`. -/
theorem promoteToLeader_unguarded (address : String) (cluster : List String)
    (hlen : (cluster.length : Int) < 2 ^ 63) :
    (∀ n : Node, (PromoteToLeader n).State = Leader ∧ (PromoteToLeader n).Term = n.Term ∧
      (PromoteToLeader n).VotedFor = n.VotedFor ∧ (PromoteToLeader n).Votes = n.Votes) ∧
    (∀ (n m : Node) (e : Event) (ack : Bool), Reachable (startNode address cluster) n →
      StateMachine n ack e = Except.ok m → n.State ≠ Leader → m.State = Leader →
      e = Event.voteResponse ∧ n.State = Candidate ∧ n.endElectionChan ≠ Chan.nil ∧
      wrapInt64 (n.Votes + 1) ≥ majority n) := by
  refine ⟨fun n => ⟨rfl, rfl, rfl, rfl⟩, ?_⟩
  intro n m e ack hr hs hn hm
  have hinv := inv_reachable address cluster hlen n hr
  obtain ⟨_, hf, hiff, _, _⟩ := hinv
  cases e with
  | termDiscover t =>
      exfalso
      obtain ⟨_, h2, _⟩ := termDiscover_result n m t ack hs
      rw [h2] at hm
      exact absurd hm (by decide)
  | requestVote v =>
      simp only [StateMachine, Except.ok.injEq] at hs; subst hs; exact absurd hm hn
  | appendEntries =>
      simp only [StateMachine, Except.ok.injEq] at hs; subst hs; exact absurd hm hn
  | heartbeatTimer =>
      simp only [StateMachine, Except.ok.injEq] at hs; subst hs; exact absurd hm hn
  | electionTimer =>
      exfalso
      simp only [StateMachine] at hs
      split at hs
      · exact Except.noConfusion hs
      · simp only [Except.ok.injEq] at hs
        subst hs
        simp [RunForLeader] at hm
  | voteResponse =>
      simp only [StateMachine] at hs
      by_cases hmaj : wrapInt64 (n.Votes + 1) ≥ majority n
      · by_cases he : n.endElectionChan = Chan.nil
        · exfalso
          have hmaj1 : wrapInt64 (n.Votes + 1)
              ≥ majority { n with Votes := wrapInt64 (n.Votes + 1) } := hmaj
          rw [if_pos hmaj1] at hs
          simp only [EndElection, he, if_true] at hs
          exact Except.noConfusion hs
        · exact ⟨rfl, hiff.mp he, he, hmaj⟩
      · exfalso
        have hmaj1 : ¬ wrapInt64 (n.Votes + 1)
            ≥ majority { n with Votes := wrapInt64 (n.Votes + 1) } := hmaj
        rw [if_neg hmaj1] at hs
        simp only [Except.ok.injEq] at hs
        subst hs
        exact hn hm

/-- Witness of the amended C9: node a with the one peer b, promoted by the vote that follows
its election timeout. -/
theorem promoteToLeader_unguarded_witness :
    (PromoteToLeader (SetTerm (NewNode "a") 7)).State = Leader ∧
    (Event.voteResponse = Event.voteResponse ∧
      (RunForLeader (NextTerm (startNode "a" ["b"]))).State = Candidate ∧
      (RunForLeader (NextTerm (startNode "a" ["b"]))).endElectionChan ≠ Chan.nil ∧
      wrapInt64 ((RunForLeader (NextTerm (startNode "a" ["b"]))).Votes + 1)
        ≥ majority (RunForLeader (NextTerm (startNode "a" ["b"])))) :=
  ⟨((promoteToLeader_unguarded "a" ["b"] (by decide)).1 (SetTerm (NewNode "a") 7)).1,
    (promoteToLeader_unguarded "a" ["b"] (by decide)).2
      (RunForLeader (NextTerm (startNode "a" ["b"])))
      (PromoteToLeader
        { RunForLeader (NextTerm (startNode "a" ["b"])) with
          Votes := 2, endElectionChan := Chan.nil, finishedElectionChan := Chan.nil,
          elections := 0 })
      Event.voteResponse true
      (Reachable.step Reachable.init (e := Event.electionTimer) (a := false) rfl rfl)
      rfl (by decide) rfl⟩

/-- C10: the election marker tracks the Candidate role. In every state the loop reaches from
a freshly set up node, where a vote event is received only while an election is active:
`endElectionChan` is non-nil exactly when the state is Candidate (and
`finishedElectionChan` with it), a Candidate has at least one vote, at most one campaign
goroutine is running, and no handler of a receivable event closes a nil `endElectionChan`:
the handler runs to its end, or blocks in the wait of `EndElection` when the campaign
goroutine does not acknowledge. -/
theorem election_marker_tracks_candidate (address : String) (cluster : List String)
    (hlen : (cluster.length : Int) < 2 ^ 63) (n : Node)
    (hr : Reachable (startNode address cluster) n) :
    (n.endElectionChan ≠ Chan.nil ↔ n.State = Candidate) ∧
    n.finishedElectionChan = n.endElectionChan ∧
    (n.State = Candidate → 1 ≤ n.Votes) ∧
    n.elections ≤ 1 ∧
    (n.elections = 1 ↔ n.State = Candidate) ∧
    (∀ (e : Event) (ack : Bool), enabled n e = true →
      StateMachine n ack e ≠ Except.error Fault.closeOfNilChannel) ∧
    (∀ (e : Event) (ack : Bool), enabled n e = true →
      (∃ m, StateMachine n ack e = Except.ok m) ∨
      (ack = false ∧ ∃ s, StateMachine n ack e = Except.error (Fault.blockedAtReceive s))) := by
  have hinv := inv_reachable address cluster hlen n hr
  have hout := fun e ack hen => inv_outcome cluster n e ack hinv hen
  obtain ⟨_, hf, hiff, hel, hv⟩ := hinv
  refine ⟨hiff, hf, fun hc => (hv hc).1, ?_, ?_, ?_, hout⟩
  · rw [hel]; split <;> omega
  · rw [← hiff, hel]
    by_cases he : n.endElectionChan = Chan.nil <;> simp [he]
  · intro e ack hen hbad
    rcases hout e ack hen with ⟨m, hm⟩ | ⟨_, s, hs⟩
    · rw [hm] at hbad; exact Except.noConfusion hbad
    · rw [hs] at hbad
      injection hbad with hbad
      exact Fault.noConfusion hbad

/-- Witness of C10: node a with peers b and c, after an election timeout and one granted
vote. -/
theorem election_marker_tracks_candidate_witness :
    ((PromoteToLeader
        { RunForLeader (NextTerm (startNode "a" ["b", "c"])) with
          Votes := 2, endElectionChan := Chan.nil, finishedElectionChan := Chan.nil,
          elections := 0 }).endElectionChan ≠ Chan.nil
      ↔ (PromoteToLeader
        { RunForLeader (NextTerm (startNode "a" ["b", "c"])) with
          Votes := 2, endElectionChan := Chan.nil, finishedElectionChan := Chan.nil,
          elections := 0 }).State = Candidate) ∧
    ((RunForLeader (NextTerm (startNode "a" ["b", "c"]))).endElectionChan ≠ Chan.nil
      ↔ (RunForLeader (NextTerm (startNode "a" ["b", "c"]))).State = Candidate) ∧
    StateMachine (RunForLeader (NextTerm (startNode "a" ["b", "c"]))) false
        Event.voteResponse ≠ Except.error Fault.closeOfNilChannel :=
  ⟨(election_marker_tracks_candidate "a" ["b", "c"] (by decide) _
      (Reachable.step
        (Reachable.step Reachable.init (e := Event.electionTimer) (a := false) rfl rfl)
        (e := Event.voteResponse) (a := true) rfl rfl)).1,
   (election_marker_tracks_candidate "a" ["b", "c"] (by decide) _
      (Reachable.step Reachable.init (e := Event.electionTimer) (a := false) rfl rfl)).1,
   (election_marker_tracks_candidate "a" ["b", "c"] (by decide) _
      (Reachable.step Reachable.init (e := Event.electionTimer) (a := false)
        rfl rfl)).2.2.2.2.2.1 Event.voteResponse false rfl⟩

end Pontoon
